import Mathlib

/-!
Verification development for an ink! ERC-20 style token contract
(src/erc20/lib.rs).  The contract state (`total_supply`, `balances`,
`allowances`), its events, its errors and every public operation are
embedded shallowly below; `ink_storage::collections::HashMap` is modelled
as an association list whose `insert` overwrites an existing key, and
reads default to 0 exactly as `get(..).copied().unwrap_or(0)` does.
`Balance` (u128 in ink) is modelled as `Nat`: every subtraction in the
source is guarded by an explicit comparison, so truncated subtraction
agrees with the machine value, and no claim exercises values near 2^128.
The environment caller is passed explicitly as the first argument of each
message, mirroring `self.env().caller()`.
-/

/-- Accounts are opaque identifiers; only equality is used by the core. -/
abbrev AccountId := Nat

/-- `Balance` from the ink environment. -/
abbrev Balance := Nat

/-- The two recoverable error kinds of the contract (src lines 49-52). -/
inductive Error where
  | InsufficientBalance
  | InsufficientApproval
deriving DecidableEq

/-- The three event records the contract can emit (src lines 20-45). -/
inductive Event where
  | Transfer : Option AccountId → Option AccountId → Balance → Event
  | TransferFrom : Option AccountId → Option AccountId → Option AccountId → Balance → Event
  | Approval : AccountId → AccountId → Balance → Event
deriving DecidableEq

/-- Lookup in an association-list map: the value stored at `k`, if any.
Models `HashMap::get`. -/
def mapGet {α β : Type} [DecidableEq α] (k : α) : List (α × β) → Option β
  | [] => none
  | (k₁, v₁) :: rest => if k = k₁ then some v₁ else mapGet k rest

/-- Insert into an association-list map, overwriting the existing entry for
`k` if there is one.  Models `HashMap::insert`. -/
def mapInsert {α β : Type} [DecidableEq α] (k : α) (v : β) :
    List (α × β) → List (α × β)
  | [] => [(k, v)]
  | (k₁, v₁) :: rest =>
    if k = k₁ then (k, v) :: rest else (k₁, v₁) :: mapInsert k v rest

/-- The contract storage (src lines 12-18). -/
structure Erc20 where
  total_supply : Balance
  balances : List (AccountId × Balance)
  allowances : List ((AccountId × AccountId) × Balance)
deriving DecidableEq

namespace Erc20

/-- `balance_of` (src lines 91-94): stored balance or 0 if absent. -/
def balance_of (s : Erc20) (who : AccountId) : Balance :=
  (mapGet who s.balances).getD 0

/-- `allowance` (src lines 96-99): stored allowance or 0 if absent. -/
def allowance (s : Erc20) (owner spender : AccountId) : Balance :=
  (mapGet (owner, spender) s.allowances).getD 0

/-- Constructor `new` (src lines 58-77): credits the whole initial supply
to the caller and emits one `Transfer {None, Some(caller), init_value}`.
Returns the fresh state together with the emitted events. -/
def new (caller : AccountId) (init_value : Balance) : Erc20 × List Event :=
  ({ total_supply := init_value,
     balances := mapInsert caller init_value [],
     allowances := [] },
   [.Transfer none (some caller) init_value])

/-- Constructor `default` (src lines 80-83): `new` at the default balance 0. -/
def default (caller : AccountId) : Erc20 × List Event :=
  new caller 0

/-- `inter_transfer` (src lines 158-179).  Reads the recipient balance
BEFORE writing the debited sender balance, exactly as the source does
(line 165 before lines 167-168).  On error the state is returned
untouched, mirroring the early `return` before any mutation. -/
def inter_transfer (s : Erc20) (fr dst : AccountId) (value : Balance) :
    Except Error (Erc20 × List Event) :=
  let from_balance : Balance := (mapGet fr s.balances).getD 0
  if value > from_balance then
    .error .InsufficientBalance
  else
    let to_balance : Balance := (mapGet dst s.balances).getD 0
    .ok ({ s with
             balances := mapInsert dst (to_balance + value)
               (mapInsert fr (from_balance - value) s.balances) },
         [.Transfer (some fr) (some dst) value])

/-- `transfer` (src lines 117-121): `inter_transfer` from the caller. -/
def transfer (caller : AccountId) (s : Erc20) (dst : AccountId)
    (value : Balance) : Except Error (Erc20 × List Event) :=
  inter_transfer s caller dst value

/-- `transfer_from` (src lines 123-156).  The allowance check comes first;
then the inner transfer; on success a `TransferFrom` event, the allowance
update, and an `Approval` event whose `value` field is the transferred
amount (the source writes the local `value`, not `new_allowance`, at
line 151). -/
def transfer_from (caller : AccountId) (s : Erc20) (fr dst : AccountId)
    (value : Balance) : Except Error (Erc20 × List Event) :=
  let allw : Balance := s.allowance fr caller
  if value > allw then
    .error .InsufficientApproval
  else
    match s.inter_transfer fr dst value with
    | .error e => .error e
    | .ok (s₁, evs) =>
      let new_allowance := allw - value
      .ok ({ s₁ with
               allowances := mapInsert (fr, caller) new_allowance s₁.allowances },
           evs ++ [.TransferFrom (some caller) (some fr) (some dst) value,
                   .Approval fr caller value])

/-- `approve` (src lines 101-115): unconditional overwrite of the
allowance, one `Approval` event, always `Ok`. -/
def approve (caller : AccountId) (s : Erc20) (spender : AccountId)
    (value : Balance) : Except Error (Erc20 × List Event) :=
  .ok ({ s with allowances := mapInsert (caller, spender) value s.allowances },
       [.Approval caller spender value])

end Erc20

/-- A public mutating call on the contract, tagged with its caller. -/
inductive Call where
  | transfer : AccountId → AccountId → Balance → Call
  | transferFrom : AccountId → AccountId → AccountId → Balance → Call
  | approve : AccountId → AccountId → Balance → Call
deriving DecidableEq

/-- Execute one call: on `Ok` the new state and the emitted events, on
error the unchanged state and no events (every failure in the source
returns before any mutation or emission). -/
def execCall (s : Erc20) : Call → Erc20 × List Event
  | .transfer c dst v =>
    match Erc20.transfer c s dst v with
    | .ok r => r
    | .error _ => (s, [])
  | .transferFrom c fr dst v =>
    match Erc20.transfer_from c s fr dst v with
    | .ok r => r
    | .error _ => (s, [])
  | .approve c sp v =>
    match Erc20.approve c s sp v with
    | .ok r => r
    | .error _ => (s, [])

/-- Run a sequence of calls, keeping only the final state. -/
def execTrace (s : Erc20) (calls : List Call) : Erc20 :=
  calls.foldl (fun st c => (execCall st c).1) s

/-- A state is reachable when some deployer, initial supply and call
sequence produce it from the constructor. -/
def Reachable (s : Erc20) : Prop :=
  ∃ depl init calls, s = execTrace (Erc20.new depl init).1 calls

/-- The sum of all values stored in the `balances` map. -/
def sumBalances (s : Erc20) : Nat :=
  (s.balances.map Prod.snd).sum

/-! ### Map lemmas -/

theorem mapGet_mapInsert_self {α β : Type} [DecidableEq α] (k : α) (v : β)
    (l : List (α × β)) : mapGet k (mapInsert k v l) = some v := by
  induction l with
  | nil => simp [mapGet, mapInsert]
  | cons p rest ih =>
    obtain ⟨k₁, v₁⟩ := p
    by_cases h : k = k₁ <;> simp [mapGet, mapInsert, h, ih]

theorem mapGet_mapInsert_ne {α β : Type} [DecidableEq α] {k k₁ : α} (v : β)
    (l : List (α × β)) (h : k ≠ k₁) :
    mapGet k (mapInsert k₁ v l) = mapGet k l := by
  induction l with
  | nil => simp [mapGet, mapInsert, h]
  | cons p rest ih =>
    obtain ⟨k₂, v₂⟩ := p
    by_cases h2 : k₁ = k₂
    · subst h2; simp [mapGet, mapInsert, h]
    · simp [mapGet, mapInsert, h2, ih]

/-! ### Characterisations of the operations -/

/-- `inter_transfer` succeeds when the sender balance covers the value,
and produces exactly the double-insert state and one `Transfer` event. -/
theorem inter_transfer_ok {s : Erc20} {fr dst : AccountId} {v : Balance}
    (h : v ≤ s.balance_of fr) :
    s.inter_transfer fr dst v =
      .ok ({ s with
               balances := mapInsert dst (s.balance_of dst + v)
                 (mapInsert fr (s.balance_of fr - v) s.balances) },
           [.Transfer (some fr) (some dst) v]) := by
  unfold Erc20.balance_of at h
  simp only [Erc20.inter_transfer]
  split
  · rename_i hgt
    exact absurd hgt (Nat.not_lt.mpr h)
  · rfl

/-- `inter_transfer` fails with `InsufficientBalance` when the value
exceeds the sender balance. -/
theorem inter_transfer_err {s : Erc20} {fr dst : AccountId} {v : Balance}
    (h : s.balance_of fr < v) :
    s.inter_transfer fr dst v = .error .InsufficientBalance := by
  unfold Erc20.balance_of at h
  simp only [Erc20.inter_transfer]
  split
  · rfl
  · rename_i hn
    exact absurd h hn

/-- `transfer_from` fails with `InsufficientApproval` whenever the value
exceeds the allowance, regardless of balances. -/
theorem transfer_from_err_approval {s : Erc20} {c fr dst : AccountId}
    {v : Balance} (h : s.allowance fr c < v) :
    Erc20.transfer_from c s fr dst v = .error .InsufficientApproval := by
  simp only [Erc20.transfer_from]
  split
  · rfl
  · rename_i hn
    exact absurd h hn

/-- `transfer_from` with sufficient allowance but insufficient balance
propagates `InsufficientBalance` from the inner transfer. -/
theorem transfer_from_err_balance {s : Erc20} {c fr dst : AccountId}
    {v : Balance} (hA : v ≤ s.allowance fr c) (hB : s.balance_of fr < v) :
    Erc20.transfer_from c s fr dst v = .error .InsufficientBalance := by
  simp only [Erc20.transfer_from]
  split
  · rename_i hgt
    exact absurd hgt (Nat.not_lt.mpr hA)
  · rw [inter_transfer_err hB]

/-- Full success characterisation of `transfer_from`: state after, and the
three events in order (`Transfer`, `TransferFrom`, `Approval` with the
transferred amount). -/
theorem transfer_from_ok {s : Erc20} {c fr dst : AccountId} {v : Balance}
    (hA : v ≤ s.allowance fr c) (hB : v ≤ s.balance_of fr) :
    Erc20.transfer_from c s fr dst v =
      .ok ({ s with
               balances := mapInsert dst (s.balance_of dst + v)
                 (mapInsert fr (s.balance_of fr - v) s.balances),
               allowances := mapInsert (fr, c) (s.allowance fr c - v)
                 s.allowances },
           [.Transfer (some fr) (some dst) v,
            .TransferFrom (some c) (some fr) (some dst) v,
            .Approval fr c v]) := by
  simp only [Erc20.transfer_from]
  split
  · rename_i hgt
    exact absurd hgt (Nat.not_lt.mpr hA)
  · rw [inter_transfer_ok hB]
    rfl

/-- Successful `inter_transfer` leaves `total_supply` untouched. -/
theorem inter_transfer_total_eq {s : Erc20} {fr dst : AccountId}
    {v : Balance} {r : Erc20 × List Event}
    (h : s.inter_transfer fr dst v = .ok r) :
    r.1.total_supply = s.total_supply := by
  simp only [Erc20.inter_transfer] at h
  split at h
  · simp at h
  · cases h; rfl

/-- Successful `transfer_from` leaves `total_supply` untouched. -/
theorem transfer_from_total_eq {s : Erc20} {c fr dst : AccountId}
    {v : Balance} {r : Erc20 × List Event}
    (h : Erc20.transfer_from c s fr dst v = .ok r) :
    r.1.total_supply = s.total_supply := by
  simp only [Erc20.transfer_from] at h
  split at h
  · simp at h
  · split at h
    · simp at h
    · rename_i s₁ evs heq
      cases h
      have h₂ := inter_transfer_total_eq heq
      exact h₂

/-! ### Sample states used by witnesses and counterexamples -/

/-- A state with 10 tokens held by account 0 and allowance 5 from
owner 0 to spender 1. -/
def sampleState : Erc20 :=
  { total_supply := 10, balances := [(0, 10)], allowances := [((0, 1), 5)] }

/-- A state with no balances and no allowances. -/
def emptyState : Erc20 :=
  { total_supply := 0, balances := [], allowances := [] }

/-- A state where spender 0 has allowance 5 from owner 1, but owner 1 has
no balance. -/
def allowOnlyState : Erc20 :=
  { total_supply := 10, balances := [], allowances := [((1, 0), 5)] }

/-! ### Claims -/

/-- Claim C1: the spec says every reachable state keeps the sum of the
`balances` map equal to `total_supply`.  The code violates this: after
`new(100)` by account 0, a self-transfer of 50 by account 0 yields a
reachable state whose balances sum to 150 while `total_supply` is 100
(the recipient balance is read before the debited sender balance is
written, so the credit overwrites the debit). -/
theorem erc20_supply_invariant_violated_by_self_transfer :
    Reachable (execTrace (Erc20.new 0 100).1 [Call.transfer 0 0 50]) ∧
    sumBalances (execTrace (Erc20.new 0 100).1 [Call.transfer 0 0 50]) = 150 ∧
    (execTrace (Erc20.new 0 100).1 [Call.transfer 0 0 50]).total_supply = 100 :=
  ⟨⟨0, 100, [Call.transfer 0 0 50], rfl⟩, by decide, by decide⟩

/-- Claim C2: the spec says a self-transfer with sufficient balance leaves
the balance net unchanged while still performing the debit/credit pair and
emitting one Transfer event.  The code instead inflates the balance: with
`balance_of(0) = 100`, `transfer(0, 50)` called by 0 succeeds and emits
the event, but leaves `balance_of(0) = 150`. -/
theorem erc20_self_transfer_inflates_balance :
    Erc20.transfer 0 { total_supply := 100, balances := [(0, 100)], allowances := [] } 0 50 =
      .ok ({ total_supply := 100, balances := [(0, 150)], allowances := [] },
           [Event.Transfer (some 0) (some 0) 50]) ∧
    Erc20.balance_of { total_supply := 100, balances := [(0, 150)], allowances := [] } 0 = 150 :=
  ⟨rfl, rfl⟩

/-- Claim C3, counterexample: with allowance 5 from owner 0 to spender 1
and a delegated transfer of 2, the new allowance is 3, yet no Approval
event with value 3 is emitted — the emitted Approval event carries the
transferred amount 2, refuting the claim that its value field is the new
allowance. -/
theorem erc20_transfer_from_approval_event_counterexample :
    Erc20.allowance (execCall sampleState (Call.transferFrom 1 0 2 2)).1 0 1 = 3 ∧
    Event.Approval 0 1 3 ∉ (execCall sampleState (Call.transferFrom 1 0 2 2)).2 ∧
    (execCall sampleState (Call.transferFrom 1 0 2 2)).2 =
      [Event.Transfer (some 0) (some 2) 2,
       Event.TransferFrom (some 1) (some 0) (some 2) 2,
       Event.Approval 0 1 2] := by
  decide

/-- Claim C3 as amended: with `v ≤ allowance(F, C)` and
`v ≤ balance_of(F)`, `transfer_from(F, T, v)` called by `C` succeeds; the
allowance drops by `v`; `balance_of(T)` gains `v` and, when `F ≠ T`,
`balance_of(F)` loses `v` with all other balances unchanged; the call
emits the inner Transfer event, then the TransferFrom event, then an
Approval event whose value field is the transferred amount `v` (not the
new allowance). -/
theorem erc20_transfer_from_success_spec (s : Erc20) (c fr dst : AccountId)
    (v : Balance) (hA : v ≤ s.allowance fr c) (hB : v ≤ s.balance_of fr) :
    ∃ s', Erc20.transfer_from c s fr dst v =
        .ok (s', [Event.Transfer (some fr) (some dst) v,
                  Event.TransferFrom (some c) (some fr) (some dst) v,
                  Event.Approval fr c v]) ∧
      s'.allowance fr c = s.allowance fr c - v ∧
      s'.balance_of dst = s.balance_of dst + v ∧
      (fr ≠ dst → s'.balance_of fr = s.balance_of fr - v) ∧
      (∀ x, x ≠ fr → x ≠ dst → s'.balance_of x = s.balance_of x) := by
  refine ⟨_, transfer_from_ok hA hB, ?_, ?_, ?_, ?_⟩
  · simp [Erc20.allowance, mapGet_mapInsert_self]
  · simp [Erc20.balance_of, mapGet_mapInsert_self]
  · intro hne
    simp [Erc20.balance_of, mapGet_mapInsert_ne _ _ hne, mapGet_mapInsert_self]
  · intro x hx1 hx2
    simp [Erc20.balance_of, mapGet_mapInsert_ne _ _ hx2, mapGet_mapInsert_ne _ _ hx1]

/-- Witness for the amended C3 at a concrete input. -/
theorem erc20_transfer_from_success_spec_witness :
    ∃ s', Erc20.transfer_from 1 sampleState 0 2 2 =
        .ok (s', [Event.Transfer (some 0) (some 2) 2,
                  Event.TransferFrom (some 1) (some 0) (some 2) 2,
                  Event.Approval 0 1 2]) ∧
      s'.allowance 0 1 = sampleState.allowance 0 1 - 2 ∧
      s'.balance_of 2 = sampleState.balance_of 2 + 2 ∧
      ((0 : AccountId) ≠ 2 → s'.balance_of 0 = sampleState.balance_of 0 - 2) ∧
      (∀ x, x ≠ 0 → x ≠ 2 → s'.balance_of x = sampleState.balance_of x) :=
  erc20_transfer_from_success_spec sampleState 1 0 2 2 (by decide) (by decide)

/-- Claim C4: a transfer between distinct accounts with sufficient balance
succeeds, moves exactly `v` from sender to recipient, leaves every other
balance unchanged, and emits exactly one Transfer event. -/
theorem erc20_transfer_success_spec (s : Erc20) (A B : AccountId)
    (v : Balance) (hAB : A ≠ B) (hv : v ≤ s.balance_of A) :
    ∃ s', Erc20.transfer A s B v =
        .ok (s', [Event.Transfer (some A) (some B) v]) ∧
      s'.balance_of A = s.balance_of A - v ∧
      s'.balance_of B = s.balance_of B + v ∧
      ∀ x, x ≠ A → x ≠ B → s'.balance_of x = s.balance_of x := by
  refine ⟨_, inter_transfer_ok hv, ?_, ?_, ?_⟩
  · simp [Erc20.balance_of, mapGet_mapInsert_ne _ _ hAB, mapGet_mapInsert_self]
  · simp [Erc20.balance_of, mapGet_mapInsert_self]
  · intro x hx1 hx2
    simp [Erc20.balance_of, mapGet_mapInsert_ne _ _ hx2, mapGet_mapInsert_ne _ _ hx1]

/-- Witness for C4 at a concrete input. -/
theorem erc20_transfer_success_spec_witness :
    ∃ s', Erc20.transfer 0 sampleState 1 4 =
        .ok (s', [Event.Transfer (some 0) (some 1) 4]) ∧
      s'.balance_of 0 = sampleState.balance_of 0 - 4 ∧
      s'.balance_of 1 = sampleState.balance_of 1 + 4 ∧
      ∀ x, x ≠ 0 → x ≠ 1 → s'.balance_of x = sampleState.balance_of x :=
  erc20_transfer_success_spec sampleState 0 1 4 (by decide) (by decide)

/-- Claim C5: when the value exceeds the allowance, `transfer_from` fails
with InsufficientApproval and changes nothing; no balance hypothesis is
needed, so the allowance check strictly precedes the balance check and an
insufficient balance is masked by InsufficientApproval. -/
theorem erc20_transfer_from_approval_first_spec (s : Erc20)
    (c fr dst : AccountId) (v : Balance) (h : s.allowance fr c < v) :
    Erc20.transfer_from c s fr dst v = .error .InsufficientApproval ∧
    execCall s (Call.transferFrom c fr dst v) = (s, []) := by
  have he : Erc20.transfer_from c s fr dst v = .error .InsufficientApproval :=
    transfer_from_err_approval h
  refine ⟨he, ?_⟩
  simp [execCall, he]

/-- Witness for C5 where both the allowance and the balance are
insufficient: the result is still InsufficientApproval. -/
theorem erc20_transfer_from_approval_first_spec_witness :
    Erc20.transfer_from 0 emptyState 1 2 1 = .error .InsufficientApproval ∧
    execCall emptyState (Call.transferFrom 0 1 2 1) = (emptyState, []) :=
  erc20_transfer_from_approval_first_spec emptyState 0 1 2 1 (by decide)

/-- Claim C6: with sufficient allowance but insufficient balance,
`transfer_from` fails with InsufficientBalance propagated from the inner
transfer, and neither balances nor the allowance change. -/
theorem erc20_transfer_from_balance_fail_spec (s : Erc20)
    (c fr dst : AccountId) (v : Balance)
    (hA : v ≤ s.allowance fr c) (hB : s.balance_of fr < v) :
    Erc20.transfer_from c s fr dst v = .error .InsufficientBalance ∧
    execCall s (Call.transferFrom c fr dst v) = (s, []) ∧
    (execCall s (Call.transferFrom c fr dst v)).1.allowance fr c =
      s.allowance fr c := by
  have he : Erc20.transfer_from c s fr dst v = .error .InsufficientBalance :=
    transfer_from_err_balance hA hB
  refine ⟨he, ?_, ?_⟩ <;> simp [execCall, he]

/-- Witness for C6 at a concrete input. -/
theorem erc20_transfer_from_balance_fail_spec_witness :
    Erc20.transfer_from 0 allowOnlyState 1 2 3 = .error .InsufficientBalance ∧
    execCall allowOnlyState (Call.transferFrom 0 1 2 3) = (allowOnlyState, []) ∧
    (execCall allowOnlyState (Call.transferFrom 0 1 2 3)).1.allowance 1 0 =
      allowOnlyState.allowance 1 0 :=
  erc20_transfer_from_balance_fail_spec allowOnlyState 0 1 2 3 (by decide) (by decide)

/-- Claim C7: a plain transfer with insufficient balance fails with
InsufficientBalance, changes no balance and emits no event. -/
theorem erc20_transfer_balance_fail_spec (s : Erc20) (A B : AccountId)
    (v : Balance) (h : s.balance_of A < v) :
    Erc20.transfer A s B v = .error .InsufficientBalance ∧
    execCall s (Call.transfer A B v) = (s, []) := by
  have he : Erc20.transfer A s B v = .error .InsufficientBalance :=
    inter_transfer_err h
  refine ⟨he, ?_⟩
  simp [execCall, he]

/-- Witness for C7 at a concrete input. -/
theorem erc20_transfer_balance_fail_spec_witness :
    Erc20.transfer 0 emptyState 1 1 = .error .InsufficientBalance ∧
    execCall emptyState (Call.transfer 0 1 1) = (emptyState, []) :=
  erc20_transfer_balance_fail_spec emptyState 0 1 1 (by decide)

/-- Claim C8: `approve` always returns Ok with one Approval event carrying
the approved amount, and a second approval fully overwrites the first
(no balance check is involved: the statement holds for every state). -/
theorem erc20_approve_overwrite_spec (s : Erc20) (A B : AccountId)
    (v₁ v₂ : Balance) :
    Erc20.approve A s B v₁ =
      .ok ((execCall s (Call.approve A B v₁)).1, [Event.Approval A B v₁]) ∧
    (execCall s (Call.approve A B v₁)).2 = [Event.Approval A B v₁] ∧
    Erc20.allowance
        (execCall (execCall s (Call.approve A B v₁)).1
          (Call.approve A B v₂)).1 A B = v₂ ∧
    (execCall (execCall s (Call.approve A B v₁)).1
        (Call.approve A B v₂)).2 = [Event.Approval A B v₂] := by
  refine ⟨rfl, rfl, ?_, rfl⟩
  simp [execCall, Erc20.approve, Erc20.allowance, mapGet_mapInsert_self]

/-- Claim C9: `new(N)` deployed by `A` sets `total_supply = N`, credits
`N` to `A`, leaves every other account at 0, starts with empty allowances,
and emits exactly one Transfer event `{None, Some A, N}`; `default()` is
`new(0)`. -/
theorem erc20_new_spec (A : AccountId) (N : Balance) :
    (Erc20.new A N).1.total_supply = N ∧
    (Erc20.new A N).1.balance_of A = N ∧
    (∀ X, X ≠ A → (Erc20.new A N).1.balance_of X = 0) ∧
    (Erc20.new A N).1.allowances = [] ∧
    (∀ o sp, (Erc20.new A N).1.allowance o sp = 0) ∧
    (Erc20.new A N).2 = [Event.Transfer none (some A) N] ∧
    Erc20.default A = Erc20.new A 0 := by
  refine ⟨rfl, ?_, ?_, rfl, fun o sp => rfl, rfl, rfl⟩
  · simp [Erc20.new, Erc20.balance_of, mapInsert, mapGet]
  · intro X hX
    simp [Erc20.new, Erc20.balance_of, mapInsert, mapGet, hX]

/-- Witness for C9: an account other than the deployer starts at 0. -/
theorem erc20_new_spec_witness :
    Erc20.balance_of (Erc20.new 0 5).1 1 = 0 :=
  (erc20_new_spec 0 5).2.2.1 1 (by decide)

/-- Claim C10: no public operation other than the constructor modifies
`total_supply`: every `transfer`, `transfer_from` or `approve` call,
successful or failed, leaves it unchanged. -/
theorem erc20_total_supply_frame (s : Erc20) (c : Call) :
    (execCall s c).1.total_supply = s.total_supply := by
  cases c with
  | transfer cl dst v =>
    simp only [execCall]
    cases h : Erc20.transfer cl s dst v with
    | error e => rfl
    | ok r => exact inter_transfer_total_eq h
  | transferFrom cl fr dst v =>
    simp only [execCall]
    cases h : Erc20.transfer_from cl s fr dst v with
    | error e => rfl
    | ok r => exact transfer_from_total_eq h
  | approve cl sp v => rfl
